import Mathlib

/-!
Shallow embedding of the gerrit-helpers repository (gerritlog.py,
gerrithelpers/commit.py, gerrithelpers/sshclient.py).

Python dictionaries whose field sets are fixed by the code are modelled as
structures; `dict.get(k)` on an optional field is an `Option`; a Python
exception escaping a function is an `Except .. PyErr` error value.
-/

/-- Python exceptions that the modelled code can raise. -/
inductive PyErr where
  /-- `raise ValueError(msg)` -/
  | valueError (msg : String)
  /-- indexing an empty list, e.g. `patchsets[-1]` on `[]` -/
  | indexError
  /-- attribute access on `None`, e.g. `None.get('approved')` -/
  | attributeError
  /-- iterating an object that defines no iteration protocol -/
  | typeError
  /-- `json.loads` on input that is not a JSON document -/
  | jsonError
  deriving Repr, DecidableEq

/-- One entry of a patchset's `approvals` list in the raw `gerrit query`
JSON: only the `type` and `value` fields are read by the code; `value`
is a string in the raw response. -/
structure Approval where
  type : String
  value : String
  deriving Repr, DecidableEq

/-- One entry of the raw response's `patchSets` array; the code reads
`number`, `kind` and (optionally, defaulting to `[]`) `approvals`.
The `approvals := []` default mirrors `patch.get('approvals', [])`. -/
structure PatchSet where
  number : Nat
  kind : String
  approvals : List Approval
  deriving Repr, DecidableEq

/-- The raw decoded JSON object handed to `GerritCommit.__init__`:
the fields the code reads, each optional exactly where the code uses
`dict.get`. -/
structure RawChange where
  status : Option String
  patchSets : Option (List PatchSet)
  deriving Repr, DecidableEq

/-- `self.labels['Verified']` as built by `GerritCommit._parse_labels`:
a Python dict with keys `approved` and `rejected`.  Each field is an
`Option Bool` so that `dict.get(k)` (`is not None` tests downstream)
is `Option.isSome`; the parser always stores both keys. -/
structure VerifiedDict where
  approved : Option Bool
  rejected : Option Bool
  deriving Repr, DecidableEq

/-- One element of `self.labels['Code-Review']['all']`: the source appends
the raw approval dict after coercing its `value` to `int`; only `value`
is ever read downstream, so only it is modelled. -/
structure CRVote where
  value : Int
  deriving Repr, DecidableEq

/-- The normalized record produced by `GerritCommit.__init__`:
`id`, `labels['Verified']`, `labels['Code-Review']['all']`, `status`. -/
structure GerritCommit where
  id : String
  verified : Option VerifiedDict
  codeReview : List CRVote
  status : String
  deriving Repr, DecidableEq

/-- The numeric value of a decimal digit character. -/
def digitVal (c : Char) : Int :=
  (c.toNat : Int) - 48

/-- Decimal digits to the integer they denote. -/
def pyIntDigits (ds : List Char) : Int :=
  ds.foldl (fun acc c => acc * 10 + digitVal c) 0

/-- Python `int(s)` on the strings gerrit emits for vote values:
optionally `-`-signed decimal numerals such as `"2"`, `"-1"` (the code
never feeds it anything else). -/
def pyInt (s : String) : Int :=
  match s.data with
  | [] => 0
  | c :: ds => if c = ('-') then - pyIntDigits ds else pyIntDigits (c :: ds)

/-- `verified['value'] in ['1', '2']` of `_parse_labels`. -/
def approvedValue (v : String) : Bool :=
  v == ("1") || v == ("2")

/-- The Code-Review entries a patchset contributes:
`[l for l in patch.get('approvals', []) if l['type'] == 'Code-Review']`,
with each entry's `value` coerced by `int(...)`. -/
def crVotesOf (p : PatchSet) : List CRVote :=
  (p.approvals.filter (fun a => a.type == ("Code-Review"))).map
    (fun a => ⟨pyInt a.value⟩)

/-- The backward walk of `_parse_labels`:
`for patch in reversed(patchsets)`, breaking at the first patchset whose
`number` differs from the last patchset's and whose `kind` is not
`TRIVIAL_REBASE`, and appending each surviving patchset's Code-Review
votes.  The argument list is the already-reversed `patchSets` array. -/
def collectCR (last : PatchSet) : List PatchSet → List CRVote
  | [] => []
  | p :: rest =>
    if p.number != last.number && p.kind != ("TRIVIAL_REBASE") then []
    else crVotesOf p ++ collectCR last rest

/-- `GerritCommit.__init__(id, data)` together with `_parse_labels`:
sets `status` from `data.get('status', 'UNKNOWN')`, raises `ValueError`
when `patchSets` is missing, raises `IndexError` on `patchsets[-1]` when
it is present but empty, derives `labels['Verified']` from the last
patchset's first `Verified` approval, and collects Code-Review votes by
the backward walk. -/
def mkGerritCommit (id : String) (data : RawChange) : Except PyErr GerritCommit :=
  match data.patchSets with
  | none => .error (.valueError ("Missing field: patchSets"))
  | some ps =>
    match ps.getLast? with
    | none => .error .indexError
    | some last =>
      let verifiedEntries := last.approvals.filter (fun a => a.type == ("Verified"))
      let verified : Option VerifiedDict :=
        match verifiedEntries with
        | [] => none
        | v :: _ =>
          some { approved := some (approvedValue v.value),
                 rejected := some (!(approvedValue v.value)) }
      .ok { id := id
            verified := verified
            codeReview := collectCR last ps.reverse
            status := data.status.getD ("UNKNOWN") }

/-- The Verified/No-score/Failure status enum of gerritlog.py. -/
inductive VerifyStatus where
  | FAILURE
  | NO_SCORE
  | SUCCESS
  deriving Repr, DecidableEq

/-- The fields of gerritlog.py's `Commit` that the status reconciler
reads: the Change-Id trailer, the merge-base-derived merged flag, and
the (optionally absent) attached change record. -/
structure Commit where
  change_id : Option String
  is_merged : Bool
  changeinfo : Option GerritCommit
  deriving Repr, DecidableEq

/-- `Commit.verify_status`.  When `changeinfo` is present,
`status = self.changeinfo.labels['Verified']`; if that is `None`, the
subsequent `status.get('approved')` raises `AttributeError`; otherwise
the code tests `status.get('approved') is not None` and
`status.get('rejected') is not None` — key-presence tests, modelled by
`Option.isSome` on the dict's fields. -/
def Commit.verify_status (c : Commit) : Except PyErr VerifyStatus :=
  match c.changeinfo with
  | none => .ok .NO_SCORE
  | some info =>
    match info.verified with
    | none => .error .attributeError
    | some status =>
      if status.approved.isSome then .ok .SUCCESS
      else if status.rejected.isSome then .ok .FAILURE
      else .ok .NO_SCORE

/-- `Commit.review_mark`: `0` with no record, otherwise Python
`min(marks)` over the non-zero vote values, `0` when that filtered list
is empty. -/
def Commit.review_mark (c : Commit) : Int :=
  match c.changeinfo with
  | none => 0
  | some info =>
    let marks := (info.codeReview.map (·.value)).filter (· != 0)
    match marks with
    | [] => 0
    | m :: rest => rest.foldl min m

/-- `Commit.needs_rebase`. -/
def Commit.needs_rebase (c : Commit) : Bool :=
  if c.is_merged then false
  else
    match c.changeinfo with
    | none => false
    | some info => info.status == ("MERGED")

/-- What `channel.recv_exit_status()` / `stdout.read().decode()` /
`stderr.read().decode()` yield for one remote command: the exit status
and the two decoded streams.  Byte-level decoding is transport glue and
is modelled as already done. -/
structure ExecResult where
  exitStatus : Int
  stdoutData : String
  stderrData : String
  deriving Repr, DecidableEq

/-- The payload of a raised `GerritSSHException(message, exit_code,
stderr)`: its constructor stores the message, the exit code and the
decoded error stream. -/
structure GerritSSHException where
  message : String
  exit_code : Int
  stderr : String
  deriving Repr, DecidableEq

/-- `GerritSSHClient._exec`: raise `GerritSSHException('Failed to execute
command', rc, stderr)` when the remote exit status is non-zero, else
return the decoded standard output. -/
def GerritSSHClient.exec (r : ExecResult) : Except GerritSSHException String :=
  if r.exitStatus != 0 then
    .error { message := ("Failed to execute command")
             exit_code := r.exitStatus
             stderr := r.stderrData }
  else .ok r.stdoutData

/-- Python `repr` of an optional string, as rendered inside
`str(list)`: `None` or the quoted string. -/
def pyReprOptStr : Option String → String
  | none => ("None")
  | some s => ("'") ++ s ++ ("'")

/-- Python `str` of a list of optional strings, which is what the
f-string `f'change:{id}'` interpolates when `id` is such a list. -/
def pyReprList (xs : List (Option String)) : String :=
  ("[") ++ String.intercalate (", ") (xs.map pyReprOptStr) ++ ("]")

/-- The argument list `Changes.get` passes to `query`:
`['--all-approvals', f'change:{id}']`. -/
def changesGetQuery (id : String) : List String :=
  [("--all-approvals"), ("change:") ++ id]

/-- `GerritSSHClient.Changes.get(id)`.  The transport and JSON decoding
are abstracted into a collaborator `collab` that maps the query argument
list to the decoded JSON object of each line of the response
(`query(...).split('\n')`, one `json.loads` per line); `get` reads the
first line only and builds a single `GerritCommit` from it.  An empty
line list stands for a response whose first line is not a JSON document
(`json.loads` raises). -/
def changesGet (collab : List String → List RawChange) (id : String) :
    Except PyErr GerritCommit :=
  match (collab (changesGetQuery id)).head? with
  | none => .error .jsonError
  | some raw => mkGerritCommit id raw

/-- Python `for info in result` when `result` is a `GerritCommit`
instance: the class defines neither `__iter__` nor `__getitem__`, so
iteration raises `TypeError` unconditionally. -/
def pyIterGerritCommit (_ : GerritCommit) : Except PyErr (List GerritCommit) :=
  .error .typeError

/-- The `infos` step of `showlog`:
`{info.id: info for info in client.changes.get([c.change_id for c in commits])}`
— one call of `Changes.get` with the whole Change-Id list as its single
`id` argument, then a dict comprehension iterating over the returned
object. -/
def showlogInfos (collab : List String → List RawChange)
    (commits : List Commit) : Except PyErr (List (String × GerritCommit)) := do
  let result ← changesGet collab (pyReprList (commits.map (·.change_id)))
  let items ← pyIterGerritCommit result
  .ok (items.map (fun info => (info.id, info)))

/-- The commit-collection loop of `showlog`:
`for i, c in enumerate(repo.iter_commits(), 1)` appends each commit and
breaks once it is merged or the counter has reached `max_count`.  `i` is
the 1-based counter; `maxCount` is the Python integer
`int(args.max_count)`. -/
def collectCommits (maxCount : Int) : Nat → List Commit → List Commit
  | _, [] => []
  | i, c :: rest =>
    if c.is_merged || maxCount ≤ (i : Int) then [c]
    else c :: collectCommits maxCount (i + 1) rest

/-- Oldest revision of the documented walk example: non-trivial kind,
one Code-Review vote of `1`. -/
def pNormal : PatchSet :=
  ⟨1, ("NORMAL"), [⟨("Code-Review"), ("1")⟩]⟩

/-- Middle revision of the walk example: a trivial rebase with one
Code-Review vote of `2`. -/
def pTrivial1 : PatchSet :=
  ⟨2, ("TRIVIAL_REBASE"), [⟨("Code-Review"), ("2")⟩]⟩

/-- Most recent revision of the walk example: a trivial rebase with one
Code-Review vote of `-1`. -/
def pTrivial2 : PatchSet :=
  ⟨3, ("TRIVIAL_REBASE"), [⟨("Code-Review"), ("-1")⟩]⟩

/-- A locally unmerged commit with no Change-Id and no record. -/
def cUnmerged : Commit :=
  ⟨none, false, none⟩

/-- A raw response whose two patchsets share the number `1`: the older
one (index 0) is neither trivial nor at the last index, yet carries the
last entry's number. -/
def dupNumberRaw : RawChange :=
  ⟨some ("NEW"),
   some [⟨1, ("NORMAL"), [⟨("Code-Review"), ("1")⟩]⟩,
         ⟨1, ("NORMAL"), [⟨("Code-Review"), ("2")⟩]⟩]⟩

/-! ## Helper lemmas -/

/-- On patchsets that do not carry the most recent patchset's number,
the backward walk keeps exactly the longest front run of trivial
rebases. -/
theorem collectCR_eq_takeWhile (last : PatchSet) :
    ∀ l : List PatchSet, (∀ p ∈ l, p.number ≠ last.number) →
      collectCR last l =
        (l.takeWhile (fun p => p.kind == ("TRIVIAL_REBASE"))).flatMap crVotesOf := by
  intro l
  induction l with
  | nil => intro _; rfl
  | cons p rest ih =>
    intro h
    have hp : p.number ≠ last.number := h p (List.mem_cons_self p rest)
    have hnum : (p.number != last.number) = true := by
      simpa [bne_iff_ne] using hp
    rw [List.takeWhile_cons]
    cases hk : p.kind == ("TRIVIAL_REBASE") with
    | false =>
      have hcond : (p.number != last.number && p.kind != ("TRIVIAL_REBASE")) = true := by
        simp [bne, hk, hp]
      simp [collectCR, hcond]
    | true =>
      have hcond : (p.number != last.number && p.kind != ("TRIVIAL_REBASE")) = false := by
        simp [bne, hk]
      simp only [collectCR, hcond, Bool.false_eq_true, if_false, if_true,
        List.flatMap_cons]
      rw [ih (fun q hq => h q (List.mem_cons_of_mem p hq))]

/-- The walk over a non-empty reversed patchset array (whose most recent
patchset's number is distinct from the older ones') visits the most
recent patchset and then the longest run of trivial rebases preceding
it. -/
theorem collectCR_reverse (ps : List PatchSet) (last : PatchSet)
    (hlast : ps.getLast? = some last)
    (hnum : ∀ p ∈ ps.dropLast, p.number ≠ last.number) :
    collectCR last ps.reverse =
      (last :: ps.dropLast.reverse.takeWhile
          (fun p => p.kind == ("TRIVIAL_REBASE"))).flatMap crVotesOf := by
  obtain ⟨ys, rfl⟩ := List.getLast?_eq_some_iff.mp hlast
  rw [List.dropLast_concat] at hnum ⊢
  have hrev : (ys ++ [last]).reverse = last :: ys.reverse := by
    rw [List.reverse_append]; rfl
  rw [hrev, List.flatMap_cons]
  have hcond : (last.number != last.number && last.kind != ("TRIVIAL_REBASE")) = false := by
    simp
  simp only [collectCR, hcond, Bool.false_eq_true, if_false]
  rw [collectCR_eq_takeWhile last ys.reverse
    (fun p hp => hnum p (List.mem_reverse.mp hp))]

/-- The fields of a successfully constructed record, in terms of the
raw response. -/
theorem mkGerritCommit_ok_fields (id : String) (data : RawChange)
    (ps : List PatchSet) (last : PatchSet) (rec : GerritCommit)
    (h1 : data.patchSets = some ps) (h2 : ps.getLast? = some last)
    (h3 : mkGerritCommit id data = .ok rec) :
    rec.id = id ∧
    rec.codeReview = collectCR last ps.reverse ∧
    rec.status = data.status.getD ("UNKNOWN") ∧
    rec.verified =
      (match last.approvals.filter (fun a => a.type == ("Verified")) with
       | [] => none
       | v :: _ =>
         some ⟨some (approvedValue v.value), some (!(approvedValue v.value))⟩) := by
  simp only [mkGerritCommit, h1, h2] at h3
  rw [Except.ok.injEq] at h3
  subst h3
  exact ⟨rfl, rfl, rfl, rfl⟩

/-- Python `min` (a left fold of binary `min`) yields an element of the
initial value and the list. -/
theorem foldl_min_mem (rest : List Int) :
    ∀ m : Int, rest.foldl min m = m ∨ rest.foldl min m ∈ rest := by
  induction rest with
  | nil => intro m; left; rfl
  | cons a t ih =>
    intro m
    rcases ih (min m a) with h | h
    · rcases min_choice m a with hc | hc
      · left; rw [List.foldl_cons, h, hc]
      · right; rw [List.foldl_cons, h, hc]; exact List.mem_cons_self a t
    · right; exact List.mem_cons_of_mem a h

/-- Python `min` bounds the initial value and every list element from
below. -/
theorem foldl_min_le (rest : List Int) :
    ∀ m : Int, rest.foldl min m ≤ m ∧ ∀ v ∈ rest, rest.foldl min m ≤ v := by
  induction rest with
  | nil => intro m; exact ⟨le_refl m, by simp⟩
  | cons a t ih =>
    intro m
    obtain ⟨h1, h2⟩ := ih (min m a)
    refine ⟨le_trans ?_ (min_le_left m a), ?_⟩
    · rw [List.foldl_cons]; exact h1
    · intro v hv
      rcases List.mem_cons.mp hv with rfl | hv
      · rw [List.foldl_cons]; exact le_trans h1 (min_le_right m v)
      · rw [List.foldl_cons]; exact h2 v hv

/-! ## Claim theorems -/

/-- C1: the claim says `verify_status` is `NO_SCORE` when the record is
absent or its Verified value is unset, `SUCCESS` when `approved` is
true, `FAILURE` when `rejected` is true.  The code instead tests key
presence (`status.get('approved') is not None`) while `_parse_labels`
always stores both keys as booleans, so a set Verified value yields
`SUCCESS` even when rejected; and when Verified is unset with a record
present, `None.get('approved')` raises `AttributeError` instead of
returning `NO_SCORE`.  This theorem evaluates the code at both failing
inputs: the spec's own end-to-end example (record
`{status: 'MERGED', patchSets: [..one Code-Review vote of 2..]}`, no
Verified vote) raises, and a rejected Verified value yields `SUCCESS`. -/
theorem c1_verify_status_diverges :
    mkGerritCommit ("I123")
        ⟨some ("MERGED"), some [⟨1, ("REWORK"), [⟨("Code-Review"), ("2")⟩]⟩]⟩ =
      .ok ⟨("I123"), none, [⟨2⟩], ("MERGED")⟩ ∧
    Commit.verify_status
        ⟨some ("I123"), false, some ⟨("I123"), none, [⟨2⟩], ("MERGED")⟩⟩ =
      .error .attributeError ∧
    Commit.verify_status
        ⟨some ("I123"), false,
         some ⟨("I123"), some ⟨some false, some true⟩, [], ("NEW")⟩⟩ =
      .ok .SUCCESS := by
  refine ⟨rfl, rfl, rfl⟩

/-- C2: `review_mark` is `0` when the record is absent; otherwise it is
the minimum of the record's Code-Review votes after removing the zero
votes, and `0` when no non-zero vote exists; concretely `[-1, 2, 0]`
yields `-1`, `[0, 0]` yields `0`, `[]` yields `0`. -/
theorem c2_review_mark_minimum :
    (∀ c : Commit, c.changeinfo = none → c.review_mark = 0) ∧
    (∀ (c : Commit) (info : GerritCommit) (marks : List Int),
      c.changeinfo = some info →
      (info.codeReview.map CRVote.value).filter (fun v => v != 0) = marks →
      (marks = [] → c.review_mark = 0) ∧
      (marks ≠ [] → c.review_mark ∈ marks ∧ ∀ v ∈ marks, c.review_mark ≤ v)) ∧
    Commit.review_mark ⟨none, false, some ⟨("I"), none, [⟨-1⟩, ⟨2⟩, ⟨0⟩], ("NEW")⟩⟩ = -1 ∧
    Commit.review_mark ⟨none, false, some ⟨("I"), none, [⟨0⟩, ⟨0⟩], ("NEW")⟩⟩ = 0 ∧
    Commit.review_mark ⟨none, false, some ⟨("I"), none, [], ("NEW")⟩⟩ = 0 := by
  refine ⟨?_, ?_, by decide, by decide, by decide⟩
  · intro c h; simp [Commit.review_mark, h]
  · intro c info marks h1 h2
    simp only [Commit.review_mark, h1, h2]
    constructor
    · intro hm; subst hm; rfl
    · intro hm
      cases marks with
      | nil => exact absurd rfl hm
      | cons m rest =>
        constructor
        · show rest.foldl min m ∈ m :: rest
          rcases foldl_min_mem rest m with h | h
          · rw [h]; exact List.mem_cons_self m rest
          · exact List.mem_cons_of_mem m h
        · intro v hv
          show rest.foldl min m ≤ v
          rcases List.mem_cons.mp hv with rfl | hv
          · exact (foldl_min_le rest v).1
          · exact (foldl_min_le rest m).2 v hv

/-- C2 witness: the general part of the theorem applied at the concrete
record whose votes are `[-1, 2, 0]`. -/
theorem c2_review_mark_minimum_witness :
    Commit.review_mark ⟨none, false, some ⟨("I"), none, [⟨-1⟩, ⟨2⟩, ⟨0⟩], ("NEW")⟩⟩ ∈
        ([-1, 2] : List Int) ∧
    ∀ v ∈ ([-1, 2] : List Int),
      Commit.review_mark ⟨none, false, some ⟨("I"), none, [⟨-1⟩, ⟨2⟩, ⟨0⟩], ("NEW")⟩⟩ ≤ v :=
  (c2_review_mark_minimum.2.1
    ⟨none, false, some ⟨("I"), none, [⟨-1⟩, ⟨2⟩, ⟨0⟩], ("NEW")⟩⟩
    ⟨("I"), none, [⟨-1⟩, ⟨2⟩, ⟨0⟩], ("NEW")⟩ [-1, 2] rfl (by decide)).2 (by decide)

/-- C3: `needs_rebase` is `false` whenever the commit is locally merged,
`false` when the record is absent, and otherwise `true` iff the record's
status is `"MERGED"`. -/
theorem c3_needs_rebase :
    (∀ c : Commit, c.is_merged = true → c.needs_rebase = false) ∧
    (∀ c : Commit, c.changeinfo = none → c.needs_rebase = false) ∧
    (∀ (c : Commit) (info : GerritCommit),
      c.is_merged = false → c.changeinfo = some info →
      (c.needs_rebase = true ↔ info.status = ("MERGED"))) := by
  refine ⟨?_, ?_, ?_⟩
  · intro c h; simp [Commit.needs_rebase, h]
  · intro c h
    simp only [Commit.needs_rebase, h]
    cases hb : c.is_merged <;> simp
  · intro c info h1 h2
    simp [Commit.needs_rebase, h1, h2]

/-- C3 witness: the theorem applied at a locally unmerged commit whose
record has status `"MERGED"`. -/
theorem c3_needs_rebase_witness :
    Commit.needs_rebase ⟨none, false, some ⟨("I"), none, [], ("MERGED")⟩⟩ = true ↔
      (⟨("I"), none, [], ("MERGED")⟩ : GerritCommit).status = ("MERGED") :=
  c3_needs_rebase.2.2 ⟨none, false, some ⟨("I"), none, [], ("MERGED")⟩⟩
    ⟨("I"), none, [], ("MERGED")⟩ rfl rfl

/-- C6: a raw response without the `patchSets` field fails construction
with the required-field `ValueError`, which propagates (no record is
produced); a response that has the field never raises that error
(it may still fail differently, e.g. on an empty array). -/
theorem c6_missing_patchsets_fatal :
    (∀ (id : String) (data : RawChange), data.patchSets = none →
      mkGerritCommit id data = .error (.valueError ("Missing field: patchSets"))) ∧
    (∀ (id : String) (data : RawChange) (ps : List PatchSet),
      data.patchSets = some ps →
      ∀ msg, mkGerritCommit id data ≠ .error (.valueError msg)) := by
  constructor
  · intro id data h
    simp [mkGerritCommit, h]
  · intro id data ps h msg
    simp only [mkGerritCommit, h]
    cases hl : ps.getLast? <;> simp

/-- C6 witness: both parts at concrete responses. -/
theorem c6_missing_patchsets_fatal_witness :
    mkGerritCommit ("X") ⟨none, none⟩ =
        .error (.valueError ("Missing field: patchSets")) ∧
    mkGerritCommit ("X") ⟨none, some []⟩ ≠
        .error (.valueError ("Missing field: patchSets")) :=
  ⟨c6_missing_patchsets_fatal.1 ("X") ⟨none, none⟩ rfl,
   c6_missing_patchsets_fatal.2 ("X") ⟨none, some []⟩ [] rfl ("Missing field: patchSets")⟩

/-- C9: `_exec` fails iff the remote exit status is non-zero; the raised
exception carries that exit status and the decoded error stream; on a
zero exit status it returns the decoded standard output unchanged. -/
theorem c9_exec_transport_error :
    ∀ r : ExecResult,
      (r.exitStatus ≠ 0 →
        GerritSSHClient.exec r =
          .error { message := ("Failed to execute command"),
                   exit_code := r.exitStatus, stderr := r.stderrData }) ∧
      (∀ e, GerritSSHClient.exec r = .error e →
        r.exitStatus ≠ 0 ∧ e.exit_code = r.exitStatus ∧ e.stderr = r.stderrData) ∧
      (r.exitStatus = 0 → GerritSSHClient.exec r = .ok r.stdoutData) := by
  intro r
  refine ⟨?_, ?_, ?_⟩
  · intro h
    simp only [GerritSSHClient.exec]
    rw [if_pos (by simpa [bne_iff_ne] using h)]
  · intro e he
    by_cases h : r.exitStatus = 0
    · simp only [GerritSSHClient.exec] at he
      rw [if_neg (by simp [h])] at he
      exact absurd he (by simp)
    · refine ⟨h, ?_⟩
      simp only [GerritSSHClient.exec] at he
      rw [if_pos (by simpa [bne_iff_ne] using h)] at he
      cases he
      exact ⟨rfl, rfl⟩
  · intro h
    simp only [GerritSSHClient.exec]
    rw [if_neg (by simp [h])]

/-- C9 witness: the theorem at a failing and a succeeding execution. -/
theorem c9_exec_transport_error_witness :
    GerritSSHClient.exec ⟨1, ("out"), ("err")⟩ =
        .error ⟨("Failed to execute command"), 1, ("err")⟩ ∧
    GerritSSHClient.exec ⟨0, ("out"), ("err")⟩ = .ok ("out") :=
  ⟨(c9_exec_transport_error ⟨1, ("out"), ("err")⟩).1 (by decide),
   (c9_exec_transport_error ⟨0, ("out"), ("err")⟩).2.2 rfl⟩

/-- C10: a raw response whose `patchSets` field is present but an empty
array fails with the out-of-range indexing error of `patchsets[-1]`
(not the required-field error, and no record is produced); with a
non-empty array construction succeeds, so normalization is total
exactly when `patchSets` is absent or non-empty. -/
theorem c10_empty_patchsets_index_error :
    (∀ (id : String) (data : RawChange), data.patchSets = some [] →
      mkGerritCommit id data = .error .indexError) ∧
    (∀ (id : String) (data : RawChange) (ps : List PatchSet),
      data.patchSets = some ps → ps ≠ [] →
      ∃ rec, mkGerritCommit id data = .ok rec) := by
  constructor
  · intro id data h
    simp [mkGerritCommit, h]
  · intro id data ps h hne
    simp only [mkGerritCommit, h]
    cases hl : ps.getLast? with
    | none => exact absurd (List.getLast?_eq_none_iff.mp hl) hne
    | some last => exact ⟨_, rfl⟩

/-- C10 witness: both parts at concrete responses. -/
theorem c10_empty_patchsets_index_error_witness :
    mkGerritCommit ("X") ⟨none, some []⟩ = .error .indexError ∧
    ∃ rec, mkGerritCommit ("X") ⟨none, some [⟨1, ("REWORK"), []⟩]⟩ = .ok rec :=
  ⟨c10_empty_patchsets_index_error.1 ("X") ⟨none, some []⟩ rfl,
   c10_empty_patchsets_index_error.2 ("X") ⟨none, some [⟨1, ("REWORK"), []⟩]⟩
     [⟨1, ("REWORK"), []⟩] rfl (by simp)⟩

/-- C4: on a non-empty `patchSets` array (most recent entry last, its
`number` distinct from the older entries'), the walk collects
Code-Review votes from the most recent revision and then from exactly
the revisions that, walking backward, form an unbroken run of
`TRIVIAL_REBASE` kinds — it stops at and excludes the first
non-trivial, non-latest revision.  For the documented example
`[NORMAL, TRIVIAL_REBASE, TRIVIAL_REBASE]` (index 0 oldest, with votes
`1`, `2`, `-1` respectively) the record's votes are `[-1, 2]`:
indices 2 and 1 included, index 0's vote excluded. -/
theorem c4_backward_walk :
    (∀ (id : String) (data : RawChange) (ps : List PatchSet)
        (last : PatchSet) (rec : GerritCommit),
      data.patchSets = some ps → ps.getLast? = some last →
      (∀ p ∈ ps.dropLast, p.number ≠ last.number) →
      mkGerritCommit id data = .ok rec →
      rec.codeReview =
        (last :: ps.dropLast.reverse.takeWhile
            (fun p => p.kind == ("TRIVIAL_REBASE"))).flatMap crVotesOf) ∧
    mkGerritCommit ("I1") ⟨some ("NEW"), some [pNormal, pTrivial1, pTrivial2]⟩ =
      .ok ⟨("I1"), none, [⟨-1⟩, ⟨2⟩], ("NEW")⟩ := by
  constructor
  · intro id data ps last rec h1 h2 h3 h4
    rw [(mkGerritCommit_ok_fields id data ps last rec h1 h2 h4).2.1]
    exact collectCR_reverse ps last h2 h3
  · rfl

/-- C4 witness: the general part applied to the documented example. -/
theorem c4_backward_walk_witness :
    (⟨("I1"), none, [⟨-1⟩, ⟨2⟩], ("NEW")⟩ : GerritCommit).codeReview =
      (pTrivial2 :: [pNormal, pTrivial1, pTrivial2].dropLast.reverse.takeWhile
          (fun p => p.kind == ("TRIVIAL_REBASE"))).flatMap crVotesOf :=
  c4_backward_walk.1 ("I1") ⟨some ("NEW"), some [pNormal, pTrivial1, pTrivial2]⟩
    [pNormal, pTrivial1, pTrivial2] pTrivial2 ⟨("I1"), none, [⟨-1⟩, ⟨2⟩], ("NEW")⟩
    rfl rfl (by decide) c4_backward_walk.2

/-- C5: when the most recent revision's approvals contain a `Verified`
entry, the record's Verified value has `approved = true, rejected =
false` exactly for vote strings `"1"` and `"2"`, and `approved = false,
rejected = true` for every other string, so the two flags are never
both true; with no `Verified` entry the Verified value stays unset. -/
theorem c5_verified_flags :
    ∀ (id : String) (data : RawChange) (ps : List PatchSet)
      (last : PatchSet) (rec : GerritCommit),
      data.patchSets = some ps → ps.getLast? = some last →
      mkGerritCommit id data = .ok rec →
      ((last.approvals.filter (fun a => a.type == ("Verified"))) = [] →
        rec.verified = none) ∧
      (∀ v rest,
        (last.approvals.filter (fun a => a.type == ("Verified"))) = v :: rest →
        ((v.value = ("1") ∨ v.value = ("2")) →
          rec.verified = some ⟨some true, some false⟩) ∧
        (v.value ≠ ("1") → v.value ≠ ("2") →
          rec.verified = some ⟨some false, some true⟩)) ∧
      (∀ d, rec.verified = some d →
        ¬(d.approved = some true ∧ d.rejected = some true)) := by
  intro id data ps last rec h1 h2 h3
  have hv := (mkGerritCommit_ok_fields id data ps last rec h1 h2 h3).2.2.2
  refine ⟨?_, ?_, ?_⟩
  · intro hf; rw [hf] at hv; exact hv
  · intro v rest hf
    rw [hf] at hv
    have hv2 : rec.verified =
        some ⟨some (approvedValue v.value), some (!(approvedValue v.value))⟩ := hv
    constructor
    · intro hval
      have ha : approvedValue v.value = true := by
        rcases hval with h | h <;> simp [approvedValue, h]
      rw [hv2, ha]; rfl
    · intro hne1 hne2
      have ha : approvedValue v.value = false := by
        simp [approvedValue, hne1, hne2]
      rw [hv2, ha]; rfl
  · intro d hd hboth
    rcases hfl : last.approvals.filter (fun a => a.type == ("Verified")) with
      _ | ⟨v, rest⟩
    · rw [hfl] at hv
      have hv2 : rec.verified = none := hv
      rw [hv2] at hd
      exact Option.noConfusion hd
    · rw [hfl] at hv
      have hv2 : rec.verified =
          some ⟨some (approvedValue v.value), some (!(approvedValue v.value))⟩ := hv
      rw [hv2] at hd
      injection hd with hd2
      subst hd2
      have hb1 : approvedValue v.value = true := Option.some.inj hboth.1
      have hb2 : (!(approvedValue v.value)) = true := Option.some.inj hboth.2
      rw [hb1] at hb2
      exact Bool.noConfusion hb2

/-- C5 witness: the theorem at a record whose latest revision carries a
rejecting Verified vote. -/
theorem c5_verified_flags_witness :
    (⟨("I2"), some ⟨some false, some true⟩, [], ("NEW")⟩ : GerritCommit).verified =
      some ⟨some false, some true⟩ :=
  (((c5_verified_flags ("I2")
      ⟨some ("NEW"), some [⟨1, ("REWORK"), [⟨("Verified"), ("-1")⟩]⟩]⟩
      [⟨1, ("REWORK"), [⟨("Verified"), ("-1")⟩]⟩]
      ⟨1, ("REWORK"), [⟨("Verified"), ("-1")⟩]⟩
      ⟨("I2"), some ⟨some false, some true⟩, [], ("NEW")⟩
      rfl rfl rfl).2.1 ⟨("Verified"), ("-1")⟩ [] rfl).2 (by decide) (by decide))

/-- C7: `showlog` hands the whole Change-Id list to `Changes.get` as its
single `id` argument; `get` interpolates it into the one query string
`change:<id>` and builds exactly one `GerritCommit` from the first
response line.  The dict-comprehension step that iterates over the
result therefore has no iterable collection of records: whenever the
single parse succeeds the step raises `TypeError`, and it never
produces the id-to-record dictionary. -/
theorem c7_batched_get_not_iterable :
    (∀ (collab : List String → List RawChange) (commits : List Commit)
        (l : List (String × GerritCommit)),
      showlogInfos collab commits ≠ .ok l) ∧
    (∀ (collab : List String → List RawChange) (commits : List Commit)
        (g : GerritCommit),
      changesGet collab (pyReprList (commits.map (·.change_id))) = .ok g →
      showlogInfos collab commits = .error .typeError) := by
  constructor
  · intro collab commits l h
    simp only [showlogInfos] at h
    cases hg : changesGet collab (pyReprList (commits.map (·.change_id))) with
    | error e => rw [hg] at h; exact Except.noConfusion h
    | ok g => rw [hg] at h; exact Except.noConfusion h
  · intro collab commits g hg
    simp only [showlogInfos, hg]
    rfl

/-- C7 witness: the second part at a one-commit list and a transport
that returns one well-formed response line. -/
theorem c7_batched_get_not_iterable_witness :
    showlogInfos (fun _ => [⟨some ("MERGED"), some [⟨1, ("REWORK"), []⟩]⟩])
        [⟨some ("I123"), false, none⟩] = .error .typeError :=
  c7_batched_get_not_iterable.2
    (fun _ => [⟨some ("MERGED"), some [⟨1, ("REWORK"), []⟩]⟩])
    [⟨some ("I123"), false, none⟩]
    ⟨("['I123']"), none, [], ("MERGED")⟩ rfl

/-- The collection loop always yields a front segment of the iterated
history. -/
theorem collectCommits_front (m : Int) :
    ∀ (i : Nat) (l : List Commit), ∃ t, l = collectCommits m i l ++ t := by
  intro i l
  induction l generalizing i with
  | nil => exact ⟨[], rfl⟩
  | cons c rest ih =>
    rw [collectCommits]
    split
    · exact ⟨rest, rfl⟩
    · obtain ⟨t, ht⟩ := ih (i + 1)
      refine ⟨t, ?_⟩
      rw [List.cons_append]
      exact congrArg (c :: ·) ht

/-- Length bound of the collection loop, for a counter already at most
the maximum. -/
theorem collectCommits_length_le (m : Int) :
    ∀ (l : List Commit) (i : Nat), (i : Int) ≤ m →
      ((collectCommits m i l).length : Int) ≤ m - (i : Int) + 1 := by
  intro l
  induction l with
  | nil =>
    intro i hi
    simp only [collectCommits, List.length_nil]
    omega
  | cons c rest ih =>
    intro i hi
    rw [collectCommits]
    split
    · simp only [List.length_singleton]
      omega
    · rename_i hguard
      simp only [Bool.or_eq_true, decide_eq_true_eq, not_or] at hguard
      have hlt : (i : Int) < m := by omega
      have hrec := ih (i + 1) (by push_cast; omega)
      simp only [List.length_cons]
      push_cast at hrec ⊢
      omega

/-- Every collected commit except possibly the final one is unmerged. -/
theorem collectCommits_dropLast_unmerged (m : Int) :
    ∀ (l : List Commit) (i : Nat) (c : Commit),
      c ∈ (collectCommits m i l).dropLast → c.is_merged = false := by
  intro l
  induction l with
  | nil => intro i c h; simp [collectCommits] at h
  | cons a rest ih =>
    intro i c h
    rw [collectCommits] at h
    split at h
    · simp at h
    · rename_i hguard
      simp only [Bool.or_eq_true, decide_eq_true_eq, not_or] at hguard
      cases hrec : collectCommits m (i + 1) rest with
      | nil => rw [hrec] at h; simp at h
      | cons b t =>
        rw [hrec, List.dropLast_cons₂] at h
        rcases List.mem_cons.mp h with rfl | h2
        · simpa using hguard.1
        · exact ih (i + 1) c (by rw [hrec]; exact h2)

/-- C8 counterexample: with `max_count = 0` (reachable via
`--max-count 0`, since the loop appends the commit before testing the
guard) a non-empty history still yields one collected commit, so the
collected list's length exceeds the configured maximum count. -/
theorem c8_maxcount_zero_cex :
    collectCommits 0 1 [cUnmerged] = [cUnmerged] ∧
    ¬ (((collectCommits 0 1 [cUnmerged]).length : Int) ≤ 0) := by
  exact ⟨rfl, by decide⟩

/-- C8 (amended): for every configured maximum count of at least 1, the
collected list is a front segment of the iteration order, its length is
at most the maximum, and only its last element may be merged (so the
loop never continues past the first locally-merged commit); for a
maximum below 1 the loop still collects the first commit of a
non-empty history. -/
theorem c8_collect_guard :
    ∀ (m : Int) (hist : List Commit), 1 ≤ m →
      (∃ t, hist = collectCommits m 1 hist ++ t) ∧
      ((collectCommits m 1 hist).length : Int) ≤ m ∧
      (∀ c ∈ (collectCommits m 1 hist).dropLast, c.is_merged = false) := by
  intro m hist hm
  refine ⟨collectCommits_front m 1 hist, ?_,
    fun c hc => collectCommits_dropLast_unmerged m hist 1 c hc⟩
  have hlen := collectCommits_length_le m hist 1 (by exact_mod_cast hm)
  push_cast at hlen
  omega

/-- C8 witness: the amended theorem at `max_count = 1` over a one-commit
history. -/
theorem c8_collect_guard_witness :
    (∃ t, [cUnmerged] = collectCommits 1 1 [cUnmerged] ++ t) ∧
    ((collectCommits 1 1 [cUnmerged]).length : Int) ≤ 1 ∧
    (∀ c ∈ (collectCommits 1 1 [cUnmerged]).dropLast, c.is_merged = false) :=
  c8_collect_guard 1 [cUnmerged] (by decide)

/-- C4 counterexample: the walk's stop test compares patchset numbers,
not positions.  On a response whose older, non-trivial revision carries
the same number `1` as the most recent one, the older revision's vote
is collected (`codeReview = [2, 1]`), not excluded as the claim's
"most recent one or all-trivial back to it" rule demands (`[2]`). -/
theorem c4_duplicate_number_cex :
    mkGerritCommit ("Idup") dupNumberRaw =
      .ok ⟨("Idup"), none, [⟨2⟩, ⟨1⟩], ("NEW")⟩ ∧
    [(⟨2⟩ : CRVote), ⟨1⟩] ≠ [⟨2⟩] :=
  ⟨rfl, by decide⟩
